import Mathlib

/-!
Shallow embedding of the MP-SPDZ fixture generators
(`gen_activation_inputs.py`, `gen_conv_inputs.py`, `gen_linear_inputs.py`).

Each Python script is a single `main` that validates its command-line
arguments, seeds the process PRNG, derives an inclusive value range from
`(bits, signed)`, samples integers, writes one or two per-party text files,
and finally prints a summary inside `try: ... except Exception: pass`.

The embedding turns each `main` into a pure function from an argument
record (mirroring the argparse options and their defaults) to
`Except String (List PartyFile)`: `Except.error msg` models
`raise SystemExit(msg)` with no file written, `Except.ok files` models a
completed run that wrote exactly those files.  The summary block is
modelled by a `summary` argument of type `Except String Unit` whose value
is swallowed, mirroring `except Exception: pass`.
-/

/-- Modelled from the spec (§4.3 Deterministic Sampler): the raw output
stream of Python's seeded Mersenne Twister (`random.seed` /
`random._randbelow`), which is library code external to this repository.
Only the properties the spec relies on are used by any proof: the stream
is a pure function of `(seed, draw index)` and yields nonnegative raw
values.  The concrete mixing arithmetic below is a model, not MT19937. -/
def pyStream (seed : Int) (k : Nat) : Nat :=
  ((seed.natAbs + 2 * seed.toNat + 1) * (k + 1) * 2654435761 + k * k * 97 + 12345) % 4294967296

/-- State of the process-wide `random` generator: the seed installed by
`random.seed` and the number of draws consumed so far. -/
structure PyRandom where
  seed : Int
  idx : Nat
  deriving DecidableEq, Repr

/-- Embedding of `random.seed(s)`: install the seed with no draws consumed. -/
def randseed (s : Int) : PyRandom := ⟨s, 0⟩

/-- Embedding of `random.randint(lo, hi)`: returns
`lo + _randbelow(hi - lo + 1)` and consumes one unit of generator state
(CPython: `randint(a, b) = a + self._randbelow(b - a + 1)`). -/
def randint (lo hi : Int) (g : PyRandom) : Int × PyRandom :=
  (lo + ((pyStream g.seed g.idx % (hi + 1 - lo).toNat : Nat) : Int), ⟨g.seed, g.idx + 1⟩)

/-- Draw `n` integers in order, threading the generator state
(the body of `" ".join(str(r()) for _ in range(n))`). -/
def drawList : Nat → Int → Int → PyRandom → List Int × PyRandom
  | 0, _, _, g => ([], g)
  | n + 1, lo, hi, g =>
    let p := randint lo hi g
    let q := drawList n lo hi p.2
    (p.1 :: q.1, q.2)

/-- Draw `r` rows of `c` integers each, row-major, threading the state
(the `for _ in range(rows): ... for _ in range(cols)` nest). -/
def drawRows : Nat → Nat → Int → Int → PyRandom → List (List Int) × PyRandom
  | 0, _, _, _, g => ([], g)
  | r + 1, c, lo, hi, g =>
    let p := drawList c lo hi g
    let q := drawRows r c lo hi p.2
    (p.1 :: q.1, q.2)

/-- Embedding of the shared range derivation
(`lo = -(1 << (bits-1)); hi = (1 << (bits-1)) - 1` when signed,
`lo = 0; hi = (1 << bits) - 1` when unsigned), identical in all three
scripts.  `bits` is the raw argparse integer; every caller validates
`1 ≤ bits ≤ 31` before calling. -/
def deriveRange (bits : Int) (signed : Bool) : Int × Int :=
  if signed then
    (-((1 <<< (bits - 1).toNat : Nat) : Int), ((1 <<< (bits - 1).toNat : Nat) : Int) - 1)
  else
    (0, ((1 <<< bits.toNat : Nat) : Int) - 1)

/-- One row of an output file as text: values space-separated
(`" ".join(str(v) ...)`) followed by the single `"\n"` the scripts write
after each row. -/
def renderRow (row : List Int) : String :=
  String.intercalate " " (row.map toString) ++ "\n"

/-- Whole file content: the concatenation of its rendered rows, in order. -/
def renderRows (rows : List (List Int)) : String :=
  String.join (rows.map renderRow)

/-- One written party file: its path (`os.path.join(dir, name)`), the drawn
values row by row, and the exact text written. -/
structure PartyFile where
  path : String
  rows : List (List Int)
  content : String
  deriving DecidableEq, Repr

/-- Embedding of the `try: <summary> except Exception: pass` block: the
outcome of computing and printing the summary is discarded whether it
succeeded or raised. -/
def swallow : Except String Unit → Unit
  | .ok _ => ()
  | .error _ => ()

/-! ## gen_activation_inputs.py -/

/-- Argparse options of `gen_activation_inputs.py` with their defaults.
Note `--signed` is `store_true` with `default=True`, so argparse can only
ever leave it `true`; `--unsigned` is plain `store_true`. -/
structure ActArgs where
  len : Int := 1024
  seed : Int := 42
  bits : Int := 16
  signed : Bool := true
  unsigned : Bool := false
  dir : String := "Player-Data"
  p0File : String := "Input-P0-0"
  deriving DecidableEq, Repr

def actLenMsg : String := "LEN must be positive."

def bitsMsg : String := "bits must be between 1 and 31 for practical decimal I/O sizes."

/-- The value `use_signed = args.signed and not args.unsigned`. -/
def actUseSigned (a : ActArgs) : Bool := a.signed && !a.unsigned

/-- The range `[lo, hi]` the threshold generator samples from. -/
def actRange (a : ActArgs) : Int × Int := deriveRange a.bits (actUseSigned a)

/-- The LEN lines of party 0, one drawn integer per line
(`f0.write(f"{r()}\n")` repeated LEN times). -/
def actRows (a : ActArgs) : List (List Int) :=
  (drawRows a.len.toNat 1 (actRange a).1 (actRange a).2 (randseed a.seed)).1

/-- Embedding of `main` of `gen_activation_inputs.py`. -/
def genActivation (a : ActArgs) (summary : Except String Unit) :
    Except String (List PartyFile) :=
  if a.len ≤ 0 then .error actLenMsg
  else if a.bits ≤ 0 ∨ 31 < a.bits then .error bitsMsg
  else
    let _ := swallow summary
    .ok [⟨a.dir ++ "/" ++ a.p0File, actRows a, renderRows (actRows a)⟩]

/-! ## gen_conv_inputs.py -/

/-- Argparse options of `gen_conv_inputs.py` with their defaults
(`--signed` is a plain `store_true`, default unsigned). -/
structure ConvArgs where
  aRows : Int := 8
  aCols : Int := 8
  wDim : Int := 2
  seed : Int := 42
  bits : Int := 16
  signed : Bool := false
  dir : String := "Player-Data"
  p0File : String := "Input-P0-0"
  p1File : String := "Input-P1-0"
  deriving DecidableEq, Repr

def convDimsMsg : String := "A_ROWS, A_COLS, and W_DIM must be positive."

/-- The f-string
`f"W_DIM={W_DIM} must be <= A_ROWS={A_ROWS} and <= A_COLS={A_COLS} (valid conv)."`. -/
def convValidMsg (w ar ac : Int) : String :=
  "W_DIM=" ++ toString w ++ " must be <= A_ROWS=" ++ toString ar ++
    " and <= A_COLS=" ++ toString ac ++ " (valid conv)."

/-- The range `[lo, hi]` the convolution generator samples from. -/
def convRange (a : ConvArgs) : Int × Int := deriveRange a.bits a.signed

/-- The A matrix rows then the W kernel rows, drawn in that order from the
single seeded generator (party 0's file is written before party 1's). -/
def convDraw (a : ConvArgs) : List (List Int) × List (List Int) :=
  let g := randseed a.seed
  let pA := drawRows a.aRows.toNat a.aCols.toNat (convRange a).1 (convRange a).2 g
  let pW := drawRows a.wDim.toNat a.wDim.toNat (convRange a).1 (convRange a).2 pA.2
  (pA.1, pW.1)

/-- Embedding of `main` of `gen_conv_inputs.py`. -/
def genConv (a : ConvArgs) (summary : Except String Unit) :
    Except String (List PartyFile) :=
  if a.aRows ≤ 0 ∨ a.aCols ≤ 0 ∨ a.wDim ≤ 0 then .error convDimsMsg
  else if a.wDim > a.aRows ∨ a.wDim > a.aCols then
    .error (convValidMsg a.wDim a.aRows a.aCols)
  else if a.bits ≤ 0 ∨ 31 < a.bits then .error bitsMsg
  else
    let _ := swallow summary
    .ok [⟨a.dir ++ "/" ++ a.p0File, (convDraw a).1, renderRows (convDraw a).1⟩,
         ⟨a.dir ++ "/" ++ a.p1File, (convDraw a).2, renderRows (convDraw a).2⟩]

/-! ## gen_linear_inputs.py -/

/-- Argparse options of `gen_linear_inputs.py` with their defaults.
The script never validates `n`. -/
structure LinArgs where
  n : Int := 2048
  seed : Int := 42
  bits : Int := 16
  signed : Bool := false
  dir : String := "Player-Data"
  p0File : String := "Input-P0-0"
  p1File : String := "Input-P1-0"
  deriving DecidableEq, Repr

/-- The range `[lo, hi]` the linear-layer generator samples from. -/
def linRange (a : LinArgs) : Int × Int := deriveRange a.bits a.signed

/-- The vector x, the n×n matrix W, then the bias b, drawn in that order
from the single seeded generator. -/
def linDraw (a : LinArgs) : List Int × List (List Int) × List Int :=
  let g := randseed a.seed
  let px := drawList a.n.toNat (linRange a).1 (linRange a).2 g
  let pw := drawRows a.n.toNat a.n.toNat (linRange a).1 (linRange a).2 px.2
  let pb := drawList a.n.toNat (linRange a).1 (linRange a).2 pw.2
  (px.1, pw.1, pb.1)

/-- Embedding of `main` of `gen_linear_inputs.py`: party 0 gets one line
(x), party 1 gets the n matrix rows followed by one bias line.  There is
no validation of `n` in the source. -/
def genLinear (a : LinArgs) (summary : Except String Unit) :
    Except String (List PartyFile) :=
  if a.bits ≤ 0 ∨ 31 < a.bits then .error bitsMsg
  else
    let _ := swallow summary
    .ok [⟨a.dir ++ "/" ++ a.p0File, [(linDraw a).1], renderRows [(linDraw a).1]⟩,
         ⟨a.dir ++ "/" ++ a.p1File, (linDraw a).2.1 ++ [(linDraw a).2.2],
           renderRows ((linDraw a).2.1 ++ [(linDraw a).2.2])⟩]

/-- Observable data of a run that ignores output paths: for each file, its
rows of values and its exact byte content. -/
def runData (r : Except String (List PartyFile)) :
    Except String (List (List (List Int) × String)) :=
  r.map (List.map fun f => (f.rows, f.content))

/-! ## Helper lemmas -/

theorem randint_le (lo hi : Int) (g : PyRandom) (h : lo ≤ hi) :
    lo ≤ (randint lo hi g).1 ∧ (randint lo hi g).1 ≤ hi := by
  unfold randint
  simp only
  have hw : 0 < (hi + 1 - lo).toNat := by omega
  have hm := Nat.mod_lt (pyStream g.seed g.idx) hw
  have hc : ((pyStream g.seed g.idx % (hi + 1 - lo).toNat : Nat) : Int) <
      (((hi + 1 - lo).toNat : Nat) : Int) := by exact_mod_cast hm
  have hnn : (0 : Int) ≤ ((pyStream g.seed g.idx % (hi + 1 - lo).toNat : Nat) : Int) :=
    Int.natCast_nonneg _
  constructor <;> omega

theorem drawList_length (n : Nat) (lo hi : Int) (g : PyRandom) :
    (drawList n lo hi g).1.length = n := by
  induction n generalizing g with
  | zero => simp [drawList]
  | succ n ih => simp [drawList, ih]

theorem drawList_mem (n : Nat) (lo hi : Int) (g : PyRandom) (h : lo ≤ hi) :
    ∀ v ∈ (drawList n lo hi g).1, lo ≤ v ∧ v ≤ hi := by
  induction n generalizing g with
  | zero => simp [drawList]
  | succ n ih =>
    simp only [drawList, List.mem_cons]
    rintro v (rfl | hv)
    · exact randint_le lo hi g h
    · exact ih _ v hv

theorem drawRows_length (r c : Nat) (lo hi : Int) (g : PyRandom) :
    (drawRows r c lo hi g).1.length = r := by
  induction r generalizing g with
  | zero => simp [drawRows]
  | succ r ih => simp [drawRows, ih]

theorem drawRows_row_length (r c : Nat) (lo hi : Int) (g : PyRandom) :
    ∀ row ∈ (drawRows r c lo hi g).1, row.length = c := by
  induction r generalizing g with
  | zero => simp [drawRows]
  | succ r ih =>
    simp only [drawRows, List.mem_cons]
    rintro row (rfl | hr)
    · exact drawList_length c lo hi g
    · exact ih _ row hr

theorem drawRows_mem (r c : Nat) (lo hi : Int) (g : PyRandom) (h : lo ≤ hi) :
    ∀ row ∈ (drawRows r c lo hi g).1, ∀ v ∈ row, lo ≤ v ∧ v ≤ hi := by
  induction r generalizing g with
  | zero => simp [drawRows]
  | succ r ih =>
    simp only [drawRows, List.mem_cons]
    rintro row (rfl | hr)
    · exact drawList_mem c lo hi g h
    · exact ih _ row hr

theorem deriveRange_signed_eq (bits : Int) :
    deriveRange bits true =
      (-((2 : Int) ^ (bits - 1).toNat), (2 : Int) ^ (bits - 1).toNat - 1) := by
  simp [deriveRange, Nat.shiftLeft_eq]

theorem deriveRange_unsigned_eq (bits : Int) :
    deriveRange bits false = (0, (2 : Int) ^ bits.toNat - 1) := by
  simp [deriveRange, Nat.shiftLeft_eq]

theorem deriveRange_le (bits : Int) (s : Bool) :
    (deriveRange bits s).1 ≤ (deriveRange bits s).2 := by
  cases s
  · rw [deriveRange_unsigned_eq]
    have h1 : (1 : Int) ≤ 2 ^ bits.toNat := one_le_pow₀ (by norm_num)
    simp only
    omega
  · rw [deriveRange_signed_eq]
    have h1 : (1 : Int) ≤ 2 ^ (bits - 1).toNat := one_le_pow₀ (by norm_num)
    simp only
    omega

/-! ## Claim theorems -/

/-- C3: for every bits in [1,31] the derived value range is exactly
[-2^(bits-1), 2^(bits-1)-1] when signed and [0, 2^bits-1] when unsigned,
and in both cases lo ≤ hi. -/
theorem derived_range_correct (bits : Int) (h1 : 1 ≤ bits) (h2 : bits ≤ 31) :
    deriveRange bits true =
      (-((2 : Int) ^ (bits - 1).toNat), (2 : Int) ^ (bits - 1).toNat - 1) ∧
    deriveRange bits false = (0, (2 : Int) ^ bits.toNat - 1) ∧
    ∀ s : Bool, (deriveRange bits s).1 ≤ (deriveRange bits s).2 :=
  ⟨deriveRange_signed_eq bits, deriveRange_unsigned_eq bits, fun s => deriveRange_le bits s⟩

/-- Witness for derived_range_correct at bits = 16. -/
theorem derived_range_correct_witness :
    deriveRange 16 true =
      (-((2 : Int) ^ ((16 : Int) - 1).toNat), (2 : Int) ^ ((16 : Int) - 1).toNat - 1) ∧
    deriveRange 16 false = (0, (2 : Int) ^ (16 : Int).toNat - 1) ∧
    ∀ s : Bool, (deriveRange 16 s).1 ≤ (deriveRange 16 s).2 :=
  derived_range_correct 16 (by decide) (by decide)

/-- C10: in the threshold generator the argparse defaults leave
signed = true and unsigned = false, so the default range is the signed one;
and whenever --unsigned is supplied (even together with --signed), the
range used is the unsigned [0, 2^bits - 1]. -/
theorem unsigned_overrides_signed (a : ActArgs) (hs : a.signed = true)
    (hu : a.unsigned = true) :
    ({} : ActArgs).signed = true ∧ ({} : ActArgs).unsigned = false ∧
    actRange {} = deriveRange 16 true ∧
    actUseSigned a = false ∧
    actRange a = (0, (2 : Int) ^ a.bits.toNat - 1) := by
  refine ⟨rfl, rfl, rfl, ?_, ?_⟩
  · simp [actUseSigned, hs, hu]
  · simp [actRange, actUseSigned, hs, hu, deriveRange_unsigned_eq]

/-- Witness for unsigned_overrides_signed: both flags supplied with the
other options at their defaults. -/
theorem unsigned_overrides_signed_witness :
    ({} : ActArgs).signed = true ∧ ({} : ActArgs).unsigned = false ∧
    actRange {} = deriveRange 16 true ∧
    actUseSigned ⟨1024, 42, 16, true, true, "Player-Data", "Input-P0-0"⟩ = false ∧
    actRange ⟨1024, 42, 16, true, true, "Player-Data", "Input-P0-0"⟩ =
      (0, (2 : Int) ^ (16 : Int).toNat - 1) :=
  unsigned_overrides_signed ⟨1024, 42, 16, true, true, "Player-Data", "Input-P0-0"⟩ rfl rfl

/-- C8: a bit width outside [1,31] makes every generator terminate with a
SystemExit error and no written file (the linear generator checks bits
first, so there the message is always the bits message). -/
theorem bits_out_of_range_fails (a : ActArgs) (c : ConvArgs) (l : LinArgs)
    (s : Except String Unit)
    (ha : a.bits ≤ 0 ∨ 31 < a.bits) (hc : c.bits ≤ 0 ∨ 31 < c.bits)
    (hl : l.bits ≤ 0 ∨ 31 < l.bits) :
    (∃ msg, genActivation a s = .error msg) ∧
    (∃ msg, genConv c s = .error msg) ∧
    genLinear l s = .error bitsMsg := by
  refine ⟨?_, ?_, ?_⟩
  · unfold genActivation
    by_cases h : a.len ≤ 0
    · exact ⟨actLenMsg, by simp [h]⟩
    · exact ⟨bitsMsg, by simp [h, ha]⟩
  · unfold genConv
    by_cases h1 : c.aRows ≤ 0 ∨ c.aCols ≤ 0 ∨ c.wDim ≤ 0
    · exact ⟨convDimsMsg, by simp [h1]⟩
    · by_cases h2 : c.wDim > c.aRows ∨ c.wDim > c.aCols
      · exact ⟨convValidMsg c.wDim c.aRows c.aCols, by simp [h1, h2]⟩
      · exact ⟨bitsMsg, by simp [h1, h2, hc]⟩
  · unfold genLinear
    simp [hl]

/-- Witness for bits_out_of_range_fails at bits = 32 everywhere. -/
theorem bits_out_of_range_fails_witness :
    (∃ msg, genActivation { bits := 32 } (.ok ()) = .error msg) ∧
    (∃ msg, genConv { bits := 32 } (.ok ()) = .error msg) ∧
    genLinear { bits := 32 } (.ok ()) = .error bitsMsg :=
  bits_out_of_range_fails { bits := 32 } { bits := 32 } { bits := 32 } (.ok ())
    (by decide) (by decide) (by decide)

/-- C1 counterexample: the linear-layer generator does not validate n.
With n = 0 (non-positive) and otherwise default options it completes
successfully and writes both party files (each a single newline), instead
of failing with an InvalidParameter error. -/
theorem linear_no_n_validation_cex :
    genLinear { n := 0 } (.ok ()) =
      .ok [⟨"Player-Data/Input-P0-0", [[]], "\n"⟩,
           ⟨"Player-Data/Input-P1-0", [[]], "\n"⟩] := by
  rfl

/-- C1 (amended): in the threshold and convolution scenarios any
non-positive shape dimension fails with the corresponding SystemExit error
before sampling or file I/O, with no file written; the linear-layer
generator performs no such check and, for any n ≤ 0 with a valid bit
width, completes successfully and writes its two party files. -/
theorem nonpositive_dims (a : ActArgs) (c : ConvArgs) (l : LinArgs)
    (s : Except String Unit)
    (ha : a.len ≤ 0) (hc : c.aRows ≤ 0 ∨ c.aCols ≤ 0 ∨ c.wDim ≤ 0)
    (hl : l.n ≤ 0) (hlb1 : 1 ≤ l.bits) (hlb2 : l.bits ≤ 31) :
    genActivation a s = .error actLenMsg ∧
    genConv c s = .error convDimsMsg ∧
    ∃ fs, genLinear l s = .ok fs ∧ fs.length = 2 := by
  refine ⟨by simp [genActivation, ha], by simp [genConv, hc], ?_⟩
  unfold genLinear
  rw [if_neg (by omega)]
  exact ⟨_, rfl, rfl⟩

/-- Witness for nonpositive_dims: LEN = 0, A_ROWS = 0, n = 0. -/
theorem nonpositive_dims_witness :
    genActivation { len := 0 } (.ok ()) = .error actLenMsg ∧
    genConv { aRows := 0 } (.ok ()) = .error convDimsMsg ∧
    ∃ fs, genLinear { n := 0 } (.ok ()) = .ok fs ∧ fs.length = 2 :=
  nonpositive_dims { len := 0 } { aRows := 0 } { n := 0 } (.ok ())
    (by decide) (by decide) (by decide) (by decide) (by decide)

/-- C5: whenever W_DIM exceeds A_ROWS or A_COLS the convolution generator
terminates with a SystemExit error and writes no file; when the dimensions
are all positive the message is the f-string naming W_DIM, A_ROWS and
A_COLS (when some dimension is non-positive the earlier positivity check
fires first with its own message). -/
theorem conv_kernel_too_large (c : ConvArgs) (s : Except String Unit)
    (h : c.wDim > c.aRows ∨ c.wDim > c.aCols) :
    (∃ msg, genConv c s = .error msg) ∧
    (0 < c.aRows → 0 < c.aCols → 0 < c.wDim →
      genConv c s = .error (convValidMsg c.wDim c.aRows c.aCols)) := by
  constructor
  · by_cases h1 : c.aRows ≤ 0 ∨ c.aCols ≤ 0 ∨ c.wDim ≤ 0
    · exact ⟨convDimsMsg, by simp [genConv, h1]⟩
    · exact ⟨convValidMsg c.wDim c.aRows c.aCols, by simp [genConv, h1, h]⟩
  · intro p1 p2 p3
    have h1 : ¬(c.aRows ≤ 0 ∨ c.aCols ≤ 0 ∨ c.wDim ≤ 0) := by omega
    simp [genConv, h1, h]

/-- Witness for conv_kernel_too_large at W_DIM = 5, A_ROWS = A_COLS = 4. -/
theorem conv_kernel_too_large_witness :
    (∃ msg, genConv { aRows := 4, aCols := 4, wDim := 5 } (.ok ()) = .error msg) ∧
    ((0 : Int) < 4 → (0 : Int) < 4 → (0 : Int) < 5 →
      genConv { aRows := 4, aCols := 4, wDim := 5 } (.ok ()) = .error (convValidMsg 5 4 4)) :=
  conv_kernel_too_large { aRows := 4, aCols := 4, wDim := 5 } (.ok ()) (by decide)

/-- C6: for every valid convolution configuration the run succeeds with
exactly two files; party 0 has exactly A_ROWS rows of exactly A_COLS
integers each and party 1 exactly W_DIM rows of W_DIM integers, and each
file's text is its rows space-joined with one trailing newline per row. -/
theorem conv_shape (c : ConvArgs) (s : Except String Unit)
    (h1 : 0 < c.aRows) (h2 : 0 < c.aCols) (h3 : 0 < c.wDim)
    (h4 : c.wDim ≤ c.aRows) (h5 : c.wDim ≤ c.aCols)
    (h6 : 1 ≤ c.bits) (h7 : c.bits ≤ 31) :
    ∃ p0 p1 : PartyFile,
      genConv c s = .ok [p0, p1] ∧
      (p0.rows.length : Int) = c.aRows ∧
      (∀ row ∈ p0.rows, (row.length : Int) = c.aCols) ∧
      (p1.rows.length : Int) = c.wDim ∧
      (∀ row ∈ p1.rows, (row.length : Int) = c.wDim) ∧
      p0.content =
        String.join (p0.rows.map fun row =>
          String.intercalate " " (row.map toString) ++ "\n") ∧
      p1.content =
        String.join (p1.rows.map fun row =>
          String.intercalate " " (row.map toString) ++ "\n") := by
  have hv1 : ¬(c.aRows ≤ 0 ∨ c.aCols ≤ 0 ∨ c.wDim ≤ 0) := by omega
  have hv2 : ¬(c.wDim > c.aRows ∨ c.wDim > c.aCols) := by omega
  have hv3 : ¬(c.bits ≤ 0 ∨ 31 < c.bits) := by omega
  refine ⟨⟨c.dir ++ "/" ++ c.p0File, (convDraw c).1, renderRows (convDraw c).1⟩,
          ⟨c.dir ++ "/" ++ c.p1File, (convDraw c).2, renderRows (convDraw c).2⟩,
          ?_, ?_, ?_, ?_, ?_, rfl, rfl⟩
  · simp [genConv, hv1, hv2, hv3]
  · show (((convDraw c).1.length : Nat) : Int) = c.aRows
    rw [show (convDraw c).1 =
        (drawRows c.aRows.toNat c.aCols.toNat (convRange c).1 (convRange c).2
          (randseed c.seed)).1 from rfl]
    rw [drawRows_length]
    omega
  · intro row hrow
    have := drawRows_row_length c.aRows.toNat c.aCols.toNat (convRange c).1 (convRange c).2
      (randseed c.seed) row hrow
    omega
  · show (((convDraw c).2.length : Nat) : Int) = c.wDim
    rw [show (convDraw c).2 =
        (drawRows c.wDim.toNat c.wDim.toNat (convRange c).1 (convRange c).2
          (drawRows c.aRows.toNat c.aCols.toNat (convRange c).1 (convRange c).2
            (randseed c.seed)).2).1 from rfl]
    rw [drawRows_length]
    omega
  · intro row hrow
    have := drawRows_row_length c.wDim.toNat c.wDim.toNat (convRange c).1 (convRange c).2
      (drawRows c.aRows.toNat c.aCols.toNat (convRange c).1 (convRange c).2
        (randseed c.seed)).2 row hrow
    omega

/-- Witness for conv_shape at the spec's concrete scenario
(A = 3 x 3, W = 2 x 2, bits = 4). -/
theorem conv_shape_witness :
    ∃ p0 p1 : PartyFile,
      genConv { aRows := 3, aCols := 3, wDim := 2, bits := 4 } (.ok ()) = .ok [p0, p1] ∧
      (p0.rows.length : Int) = 3 ∧
      (∀ row ∈ p0.rows, (row.length : Int) = 3) ∧
      (p1.rows.length : Int) = 2 ∧
      (∀ row ∈ p1.rows, (row.length : Int) = 2) ∧
      p0.content =
        String.join (p0.rows.map fun row =>
          String.intercalate " " (row.map toString) ++ "\n") ∧
      p1.content =
        String.join (p1.rows.map fun row =>
          String.intercalate " " (row.map toString) ++ "\n") :=
  conv_shape { aRows := 3, aCols := 3, wDim := 2, bits := 4 } (.ok ())
    (by decide) (by decide) (by decide) (by decide) (by decide) (by decide) (by decide)

/-- C7: for every positive n and valid bit width the linear-layer run
succeeds with two files: party 0 is a single line of n integers; party 1
has n + 1 rows, the first n being the matrix rows of n integers each,
written before the last row, the n-integer bias. -/
theorem linear_shape (l : LinArgs) (s : Except String Unit)
    (h1 : 0 < l.n) (h2 : 1 ≤ l.bits) (h3 : l.bits ≤ 31) :
    ∃ p0 p1 : PartyFile,
      genLinear l s = .ok [p0, p1] ∧
      p0.rows.length = 1 ∧
      (∀ row ∈ p0.rows, (row.length : Int) = l.n) ∧
      (p1.rows.length : Int) = l.n + 1 ∧
      (∃ W b, p1.rows = W ++ [b] ∧ (W.length : Int) = l.n ∧
        (∀ row ∈ W, (row.length : Int) = l.n) ∧ (b.length : Int) = l.n) ∧
      p0.content =
        String.join (p0.rows.map fun row =>
          String.intercalate " " (row.map toString) ++ "\n") ∧
      p1.content =
        String.join (p1.rows.map fun row =>
          String.intercalate " " (row.map toString) ++ "\n") := by
  have hv : ¬(l.bits ≤ 0 ∨ 31 < l.bits) := by omega
  refine ⟨⟨l.dir ++ "/" ++ l.p0File, [(linDraw l).1], renderRows [(linDraw l).1]⟩,
          ⟨l.dir ++ "/" ++ l.p1File, (linDraw l).2.1 ++ [(linDraw l).2.2],
            renderRows ((linDraw l).2.1 ++ [(linDraw l).2.2])⟩,
          ?_, rfl, ?_, ?_, ?_, rfl, rfl⟩
  · simp [genLinear, hv]
  · intro row hrow
    rw [List.mem_singleton] at hrow
    subst hrow
    have : (linDraw l).1 =
        (drawList l.n.toNat (linRange l).1 (linRange l).2 (randseed l.seed)).1 := rfl
    rw [this, drawList_length]
    omega
  · have hw : (linDraw l).2.1.length = l.n.toNat := by
      rw [show (linDraw l).2.1 =
          (drawRows l.n.toNat l.n.toNat (linRange l).1 (linRange l).2
            (drawList l.n.toNat (linRange l).1 (linRange l).2 (randseed l.seed)).2).1 from rfl]
      exact drawRows_length _ _ _ _ _
    simp only [List.length_append, List.length_singleton, hw]
    omega
  · refine ⟨(linDraw l).2.1, (linDraw l).2.2, rfl, ?_, ?_, ?_⟩
    · rw [show (linDraw l).2.1 =
          (drawRows l.n.toNat l.n.toNat (linRange l).1 (linRange l).2
            (drawList l.n.toNat (linRange l).1 (linRange l).2 (randseed l.seed)).2).1 from rfl]
      rw [drawRows_length]
      omega
    · intro row hrow
      have := drawRows_row_length l.n.toNat l.n.toNat (linRange l).1 (linRange l).2
        (drawList l.n.toNat (linRange l).1 (linRange l).2 (randseed l.seed)).2 row hrow
      omega
    · rw [show (linDraw l).2.2 =
          (drawList l.n.toNat (linRange l).1 (linRange l).2
            (drawRows l.n.toNat l.n.toNat (linRange l).1 (linRange l).2
              (drawList l.n.toNat (linRange l).1 (linRange l).2 (randseed l.seed)).2).2).1 from rfl]
      rw [drawList_length]
      omega

/-- Witness for linear_shape at n = 2, bits = 3. -/
theorem linear_shape_witness :
    ∃ p0 p1 : PartyFile,
      genLinear { n := 2, bits := 3 } (.ok ()) = .ok [p0, p1] ∧
      p0.rows.length = 1 ∧
      (∀ row ∈ p0.rows, (row.length : Int) = 2) ∧
      (p1.rows.length : Int) = 2 + 1 ∧
      (∃ W b, p1.rows = W ++ [b] ∧ (W.length : Int) = 2 ∧
        (∀ row ∈ W, (row.length : Int) = 2) ∧ (b.length : Int) = 2) ∧
      p0.content =
        String.join (p0.rows.map fun row =>
          String.intercalate " " (row.map toString) ++ "\n") ∧
      p1.content =
        String.join (p1.rows.map fun row =>
          String.intercalate " " (row.map toString) ++ "\n") :=
  linear_shape { n := 2, bits := 3 } (.ok ()) (by decide) (by decide) (by decide)

/-- C4: in every successful run of each scenario, every integer in every
row of every written file lies in that run's derived [lo, hi], and the
file's text is exactly the verbatim rendering of those drawn values. -/
theorem range_containment (a : ActArgs) (c : ConvArgs) (l : LinArgs)
    (s : Except String Unit)
    (ha1 : 0 < a.len) (ha2 : 1 ≤ a.bits) (ha3 : a.bits ≤ 31)
    (hc1 : 0 < c.aRows) (hc2 : 0 < c.aCols) (hc3 : 0 < c.wDim)
    (hc4 : c.wDim ≤ c.aRows) (hc5 : c.wDim ≤ c.aCols)
    (hc6 : 1 ≤ c.bits) (hc7 : c.bits ≤ 31)
    (hl1 : 1 ≤ l.bits) (hl2 : l.bits ≤ 31) :
    (∃ fs, genActivation a s = .ok fs ∧ ∀ f ∈ fs, f.content = renderRows f.rows ∧
      ∀ row ∈ f.rows, ∀ v ∈ row, (actRange a).1 ≤ v ∧ v ≤ (actRange a).2) ∧
    (∃ fs, genConv c s = .ok fs ∧ ∀ f ∈ fs, f.content = renderRows f.rows ∧
      ∀ row ∈ f.rows, ∀ v ∈ row, (convRange c).1 ≤ v ∧ v ≤ (convRange c).2) ∧
    (∃ fs, genLinear l s = .ok fs ∧ ∀ f ∈ fs, f.content = renderRows f.rows ∧
      ∀ row ∈ f.rows, ∀ v ∈ row, (linRange l).1 ≤ v ∧ v ≤ (linRange l).2) := by
  refine ⟨⟨[⟨a.dir ++ "/" ++ a.p0File, actRows a, renderRows (actRows a)⟩],
            by simp [genActivation, show ¬(a.len ≤ 0) by omega,
              show ¬(a.bits ≤ 0 ∨ 31 < a.bits) by omega], ?_⟩,
          ⟨[⟨c.dir ++ "/" ++ c.p0File, (convDraw c).1, renderRows (convDraw c).1⟩,
            ⟨c.dir ++ "/" ++ c.p1File, (convDraw c).2, renderRows (convDraw c).2⟩],
            by simp [genConv, show ¬(c.aRows ≤ 0 ∨ c.aCols ≤ 0 ∨ c.wDim ≤ 0) by omega,
              show ¬(c.wDim > c.aRows ∨ c.wDim > c.aCols) by omega,
              show ¬(c.bits ≤ 0 ∨ 31 < c.bits) by omega], ?_⟩,
          ⟨[⟨l.dir ++ "/" ++ l.p0File, [(linDraw l).1], renderRows [(linDraw l).1]⟩,
            ⟨l.dir ++ "/" ++ l.p1File, (linDraw l).2.1 ++ [(linDraw l).2.2],
              renderRows ((linDraw l).2.1 ++ [(linDraw l).2.2])⟩],
            by simp [genLinear, show ¬(l.bits ≤ 0 ∨ 31 < l.bits) by omega], ?_⟩⟩
  · intro f hf
    rw [List.mem_singleton] at hf
    subst hf
    refine ⟨rfl, ?_⟩
    intro row hrow
    exact drawRows_mem a.len.toNat 1 (actRange a).1 (actRange a).2 (randseed a.seed)
      (deriveRange_le a.bits (actUseSigned a)) row hrow
  · intro f hf
    simp only [List.mem_cons, List.not_mem_nil, or_false] at hf
    rcases hf with hf | hf
    · subst hf
      refine ⟨rfl, ?_⟩
      intro row hrow
      exact drawRows_mem c.aRows.toNat c.aCols.toNat (convRange c).1 (convRange c).2
        (randseed c.seed) (deriveRange_le c.bits c.signed) row hrow
    · subst hf
      refine ⟨rfl, ?_⟩
      intro row hrow
      exact drawRows_mem c.wDim.toNat c.wDim.toNat (convRange c).1 (convRange c).2
        (drawRows c.aRows.toNat c.aCols.toNat (convRange c).1 (convRange c).2
          (randseed c.seed)).2 (deriveRange_le c.bits c.signed) row hrow
  · intro f hf
    simp only [List.mem_cons, List.not_mem_nil, or_false] at hf
    rcases hf with hf | hf
    · subst hf
      refine ⟨rfl, ?_⟩
      intro row hrow
      rw [List.mem_singleton] at hrow
      subst hrow
      exact drawList_mem l.n.toNat (linRange l).1 (linRange l).2 (randseed l.seed)
        (deriveRange_le l.bits l.signed)
    · subst hf
      refine ⟨rfl, ?_⟩
      intro row hrow
      rw [List.mem_append, List.mem_singleton] at hrow
      rcases hrow with hrow | hrow
      · exact drawRows_mem l.n.toNat l.n.toNat (linRange l).1 (linRange l).2
          (drawList l.n.toNat (linRange l).1 (linRange l).2 (randseed l.seed)).2
          (deriveRange_le l.bits l.signed) row hrow
      · subst hrow
        exact drawList_mem l.n.toNat (linRange l).1 (linRange l).2
          (drawRows l.n.toNat l.n.toNat (linRange l).1 (linRange l).2
            (drawList l.n.toNat (linRange l).1 (linRange l).2 (randseed l.seed)).2).2
          (deriveRange_le l.bits l.signed)

/-- Witness for range_containment at small valid configurations. -/
theorem range_containment_witness :
    (∃ fs, genActivation { len := 2, bits := 2 } (.ok ()) = .ok fs ∧
      ∀ f ∈ fs, f.content = renderRows f.rows ∧
      ∀ row ∈ f.rows, ∀ v ∈ row,
        (actRange { len := 2, bits := 2 }).1 ≤ v ∧ v ≤ (actRange { len := 2, bits := 2 }).2) ∧
    (∃ fs, genConv { aRows := 2, aCols := 2, wDim := 1, bits := 2 } (.ok ()) = .ok fs ∧
      ∀ f ∈ fs, f.content = renderRows f.rows ∧
      ∀ row ∈ f.rows, ∀ v ∈ row,
        (convRange { aRows := 2, aCols := 2, wDim := 1, bits := 2 }).1 ≤ v ∧
          v ≤ (convRange { aRows := 2, aCols := 2, wDim := 1, bits := 2 }).2) ∧
    (∃ fs, genLinear { n := 2, bits := 2 } (.ok ()) = .ok fs ∧
      ∀ f ∈ fs, f.content = renderRows f.rows ∧
      ∀ row ∈ f.rows, ∀ v ∈ row,
        (linRange { n := 2, bits := 2 }).1 ≤ v ∧ v ≤ (linRange { n := 2, bits := 2 }).2) :=
  range_containment { len := 2, bits := 2 } { aRows := 2, aCols := 2, wDim := 1, bits := 2 }
    { n := 2, bits := 2 } (.ok ()) (by decide) (by decide) (by decide) (by decide) (by decide)
    (by decide) (by decide) (by decide) (by decide) (by decide) (by decide) (by decide)

/-- C2: for each generator, any two runs whose configurations agree on
(seed, shape dimensions, bits, signedness) — the output directory, the
filenames and the summary outcome may differ — produce files with
identical rows and identical byte content, file for file. -/
theorem run_determinism (a a' : ActArgs) (c c' : ConvArgs) (l l' : LinArgs)
    (s s' : Except String Unit)
    (ha1 : a.seed = a'.seed) (ha2 : a.len = a'.len) (ha3 : a.bits = a'.bits)
    (ha4 : a.signed = a'.signed) (ha5 : a.unsigned = a'.unsigned)
    (hc1 : c.seed = c'.seed) (hc2 : c.aRows = c'.aRows) (hc3 : c.aCols = c'.aCols)
    (hc4 : c.wDim = c'.wDim) (hc5 : c.bits = c'.bits) (hc6 : c.signed = c'.signed)
    (hl1 : l.seed = l'.seed) (hl2 : l.n = l'.n) (hl3 : l.bits = l'.bits)
    (hl4 : l.signed = l'.signed) :
    runData (genActivation a s) = runData (genActivation a' s') ∧
    runData (genConv c s) = runData (genConv c' s') ∧
    runData (genLinear l s) = runData (genLinear l' s') := by
  refine ⟨?_, ?_, ?_⟩
  · have hr : actRows a = actRows a' := by
      unfold actRows actRange actUseSigned
      rw [ha1, ha2, ha3, ha4, ha5]
    unfold genActivation
    rw [ha2, ha3, hr]
    split
    · rfl
    · split
      · rfl
      · rfl
  · have hr : convDraw c = convDraw c' := by
      unfold convDraw convRange
      rw [hc1, hc2, hc3, hc5, hc6]
      rw [hc4]
    unfold genConv
    rw [hc2, hc3, hc4, hc5, hr]
    split
    · rfl
    · split
      · rfl
      · split
        · rfl
        · rfl
  · have hr : linDraw l = linDraw l' := by
      unfold linDraw linRange
      rw [hl1, hl2, hl3, hl4]
    unfold genLinear
    rw [hl3, hr]
    split
    · rfl
    · rfl

/-- Witness for run_determinism: same (seed, shape, bits, signedness),
different output directories and summary outcomes. -/
theorem run_determinism_witness :
    runData (genActivation { len := 2, bits := 2 } (.ok ())) =
      runData (genActivation { len := 2, bits := 2, dir := "Other", p0File := "X" } (.error "boom")) ∧
    runData (genConv { aRows := 2, aCols := 2, wDim := 1, bits := 2 } (.ok ())) =
      runData (genConv { aRows := 2, aCols := 2, wDim := 1, bits := 2, dir := "Other" } (.error "boom")) ∧
    runData (genLinear { n := 2, bits := 2 } (.ok ())) =
      runData (genLinear { n := 2, bits := 2, dir := "Other" } (.error "boom")) :=
  run_determinism { len := 2, bits := 2 } { len := 2, bits := 2, dir := "Other", p0File := "X" }
    { aRows := 2, aCols := 2, wDim := 1, bits := 2 }
    { aRows := 2, aCols := 2, wDim := 1, bits := 2, dir := "Other" }
    { n := 2, bits := 2 } { n := 2, bits := 2, dir := "Other" } (.ok ()) (.error "boom")
    rfl rfl rfl rfl rfl rfl rfl rfl rfl rfl rfl rfl rfl rfl rfl

/-- C9: after validation passes, a failing summary computation is
swallowed: the run's result is the same whether the summary step succeeds
or raises, and in both cases the run completes with its written files. -/
theorem summary_failure_swallowed (a : ActArgs) (c : ConvArgs) (l : LinArgs) (e : String)
    (ha1 : 0 < a.len) (ha2 : 1 ≤ a.bits) (ha3 : a.bits ≤ 31)
    (hc1 : 0 < c.aRows) (hc2 : 0 < c.aCols) (hc3 : 0 < c.wDim)
    (hc4 : c.wDim ≤ c.aRows) (hc5 : c.wDim ≤ c.aCols)
    (hc6 : 1 ≤ c.bits) (hc7 : c.bits ≤ 31)
    (hl1 : 1 ≤ l.bits) (hl2 : l.bits ≤ 31) :
    genActivation a (.error e) = genActivation a (.ok ()) ∧
    (∃ fs, genActivation a (.error e) = .ok fs) ∧
    genConv c (.error e) = genConv c (.ok ()) ∧
    (∃ fs, genConv c (.error e) = .ok fs) ∧
    genLinear l (.error e) = genLinear l (.ok ()) ∧
    (∃ fs, genLinear l (.error e) = .ok fs) := by
  refine ⟨rfl, ?_, rfl, ?_, rfl, ?_⟩
  · exact ⟨[⟨a.dir ++ "/" ++ a.p0File, actRows a, renderRows (actRows a)⟩],
      by simp [genActivation, show ¬(a.len ≤ 0) by omega,
        show ¬(a.bits ≤ 0 ∨ 31 < a.bits) by omega]⟩
  · exact ⟨[⟨c.dir ++ "/" ++ c.p0File, (convDraw c).1, renderRows (convDraw c).1⟩,
      ⟨c.dir ++ "/" ++ c.p1File, (convDraw c).2, renderRows (convDraw c).2⟩],
      by simp [genConv, show ¬(c.aRows ≤ 0 ∨ c.aCols ≤ 0 ∨ c.wDim ≤ 0) by omega,
        show ¬(c.wDim > c.aRows ∨ c.wDim > c.aCols) by omega,
        show ¬(c.bits ≤ 0 ∨ 31 < c.bits) by omega]⟩
  · exact ⟨[⟨l.dir ++ "/" ++ l.p0File, [(linDraw l).1], renderRows [(linDraw l).1]⟩,
      ⟨l.dir ++ "/" ++ l.p1File, (linDraw l).2.1 ++ [(linDraw l).2.2],
        renderRows ((linDraw l).2.1 ++ [(linDraw l).2.2])⟩],
      by simp [genLinear, show ¬(l.bits ≤ 0 ∨ 31 < l.bits) by omega]⟩

/-- Witness for summary_failure_swallowed at small valid configurations. -/
theorem summary_failure_swallowed_witness :
    genActivation { len := 2, bits := 2 } (.error "stat failed") =
      genActivation { len := 2, bits := 2 } (.ok ()) ∧
    (∃ fs, genActivation { len := 2, bits := 2 } (.error "stat failed") = .ok fs) ∧
    genConv { aRows := 2, aCols := 2, wDim := 1, bits := 2 } (.error "stat failed") =
      genConv { aRows := 2, aCols := 2, wDim := 1, bits := 2 } (.ok ()) ∧
    (∃ fs, genConv { aRows := 2, aCols := 2, wDim := 1, bits := 2 } (.error "stat failed") = .ok fs) ∧
    genLinear { n := 2, bits := 2 } (.error "stat failed") =
      genLinear { n := 2, bits := 2 } (.ok ()) ∧
    (∃ fs, genLinear { n := 2, bits := 2 } (.error "stat failed") = .ok fs) :=
  summary_failure_swallowed { len := 2, bits := 2 } { aRows := 2, aCols := 2, wDim := 1, bits := 2 }
    { n := 2, bits := 2 } "stat failed" (by decide) (by decide) (by decide) (by decide) (by decide)
    (by decide) (by decide) (by decide) (by decide) (by decide) (by decide) (by decide)
